import Mathlib

/-!
Verification of the stream-preview updater module (src/index.tsx).

The module keeps a single process-wide retry slot (`retryUpdate`), the id of
the current user's stream (`streamId`), and performs:

* `postPreview` — POST the thumbnail; on HTTP 429 read `retry_after`, cancel
  the slotted timer via `resetRetry`, and schedule one new timer that
  re-invokes `postPreview` with the same payload and then clears the slot;
  on any other error status the error is rethrown.
* `resetRetry` — cancel the timer held in the slot, if any.
* the `RTC_CONNECTION_VIDEO` flux handler — record the stream id for the
  current user's own "stream" context; on a cleared id call `resetRetry`.
* `updatePreview` — resize the image (width capped at 512 when the width is
  large, otherwise height scaled to 512), encode it, dispatch the local
  preview, fire the remote submit, and latch the "disable stream previews"
  setting to `true`.
* `uploadPreview` — choose a file; when the chooser returns nothing, return
  without doing anything.

The embedding models the event-loop state explicitly: pending timers are a
list, time is an abstract `Nat` clock, and every externally visible effect
is appended to a trace.
-/

/-- A scheduled retry timer: its handle (`id`), the instant at which it may
fire, and the deferred `(streamKey, imageData)` payload, exactly the data
captured by the closure passed to `setTimeout` in `postPreview`. -/
structure Timer where
  id : Nat
  fireAt : Nat
  streamKey : String
  imageData : String
deriving DecidableEq

/-- Externally visible events: an HTTP POST of a preview (the body of
`postPreview`'s try block) and the firing of a retry timer's callback. -/
inductive Event where
  | posted (streamKey imageData : String)
  | retryFired (id : Nat)
deriving DecidableEq

/-- The module-level mutable state of src/index.tsx plus the event-loop
bookkeeping needed to reason about timers: `retryUpdate` and `streamId`
are the two module-level variables (lines 36-37); `pending` holds every
scheduled, not-yet-fired, not-yet-cancelled timer; `nextId` generates fresh
timer handles; `now` is the clock; `trace` records the visible events. -/
structure SysState where
  retryUpdate : Option Nat
  streamId : Nat
  pending : List Timer
  nextId : Nat
  now : Nat
  trace : List Event
deriving DecidableEq

/-- The state at module load: no retry slotted, nothing pending. -/
def init : SysState :=
  ⟨none, 0, [], 0, 0, []⟩

/-- Advance the clock by `d` time units. -/
def tick (d : Nat) (s : SysState) : SysState :=
  { s with now := s.now + d }

/-- resetRetry (lines 144-149): if the slot is empty do nothing; otherwise
clear the timeout held in the slot (remove it from the pending list — a
no-op if it already fired) and empty the slot. -/
def resetRetry (s : SysState) : SysState :=
  match s.retryUpdate with
  | none => s
  | some tid =>
      { s with retryUpdate := none,
               pending := s.pending.filter (fun t => t.id != tid) }

/-- The outcome of the underlying `RestAPI.post` call: success, or an error
response carrying an HTTP status and the `retry_after` field of its body. -/
inductive HttpResult where
  | ok
  | err (status : Nat) (retryAfter : Nat)
deriving DecidableEq

/-- What `postPreview` does for its caller: return normally, or rethrow the
error with its status. -/
inductive PostResult where
  | ok
  | error (status : Nat)
deriving DecidableEq

/-- postPreview (lines 121-142): attempt the POST; on success return; on an
error with status other than 429 rethrow it; on 429 read `retry_after`,
call `resetRetry`, and schedule one fresh timer holding the same
`(streamKey, imageData)` payload, storing its handle in the slot. -/
def postPreview (streamKey imageData : String) (resp : HttpResult)
    (s : SysState) : SysState × PostResult :=
  let s0 := { s with trace := s.trace ++ [Event.posted streamKey imageData] }
  match resp with
  | .ok => (s0, .ok)
  | .err status retryAfter =>
      if status ≠ 429 then (s0, .error status)
      else
        let s1 := resetRetry s0
        let t : Timer := ⟨s1.nextId, s1.now + retryAfter, streamKey, imageData⟩
        ({ s1 with pending := s1.pending ++ [t],
                   retryUpdate := some t.id,
                   nextId := s1.nextId + 1 }, .ok)

/-- The firing of a scheduled timer (the callback on lines 137-140): it can
only happen for a timer still pending once its instant is reached; the
callback awaits `postPreview` with the captured payload and, only when that
call returns without throwing, clears the slot. A rethrown error skips the
clearing line. `resp` is the outcome of the re-attempted POST. -/
def fireTimer (t : Timer) (resp : HttpResult) (s : SysState) : SysState :=
  if t ∈ s.pending ∧ t.fireAt ≤ s.now then
    let s1 := { s with pending := s.pending.filter (fun u => u.id != t.id),
                       trace := s.trace ++ [Event.retryFired t.id] }
    let r := postPreview t.streamKey t.imageData resp s1
    match r.2 with
    | .ok => { r.1 with retryUpdate := none }
    | .error _ => r.1
  else s

/-- The payload of an RTC_CONNECTION_VIDEO flux event: its context, the id
of the user it concerns, and the stream id (0 models a cleared/falsy id). -/
structure RtcEvent where
  context : String
  userId : String
  streamId : Nat
deriving DecidableEq

/-- The RTC_CONNECTION_VIDEO handler (lines 49-59): ignore events that are
not about the current user's own "stream" context; otherwise record the
stream id, and when it is cleared also call `resetRetry`. -/
def rtcConnectionVideo (myId : String) (e : RtcEvent) (s : SysState) : SysState :=
  if e.context ≠ "stream" ∨ e.userId ≠ myId then s
  else
    let s1 := { s with streamId := e.streamId }
    if e.streamId ≠ 0 then s1 else resetRetry s1

/-- maxWidth (line 33). -/
def maxWidth : Nat := 512

/-- maxHeight (line 34). -/
def maxHeight : Nat := 512

/-- Division rounded to the nearest integer (half up), the rounding a
resizer applies when deriving the unconstrained dimension. -/
def roundDiv (a b : Nat) : Nat :=
  (2 * a + b) / (2 * b)

/-- The resize performed by `createImageBitmap` with the options built on
lines 89-94: when `width > maxWidth` the call fixes `resizeWidth := 512`
and leaves the height to be derived proportionally; otherwise it fixes
`resizeHeight := 512` and the width is derived proportionally. -/
def resizeDims (w h : Nat) : Nat × Nat :=
  if maxWidth < w then (maxWidth, roundDiv (h * maxWidth) w)
  else (roundDiv (w * maxHeight) h, maxHeight)

/-- The visible steps of `updatePreview` / `uploadPreview`, in order:
building the resized thumbnail, the local optimistic dispatch
(`setLocalPreview`, line 104), the remote submit (`postPreview`, line 105)
and a write to the "disable stream previews" setting (line 110). -/
inductive UAction where
  | buildThumbnail (width height : Nat)
  | dispatchLocal (streamKey imageData : String)
  | remotePost (streamKey imageData : String)
  | updateSetting (value : Bool)
deriving DecidableEq

/-- The JPEG data URL produced by `canvas.toDataURL` for the resized
bitmap, modelled as a string determined by the resized dimensions. -/
def toDataURL (w h : Nat) : String :=
  "data:image/jpeg;" ++ toString w ++ "x" ++ toString h

/-- updatePreview (lines 87-111) as the ordered list of visible actions it
performs together with the final value of the "disable stream previews"
setting: resize, encode, dispatch the local preview, submit remotely, then
read the setting and latch it to `true` unless it already is. -/
def updatePreview (streamKey : String) (width height : Nat)
    (previewDisabled : Bool) : List UAction × Bool :=
  let dims := resizeDims width height
  let imageData := toDataURL dims.1 dims.2
  let acts := [UAction.buildThumbnail dims.1 dims.2,
               UAction.dispatchLocal streamKey imageData,
               UAction.remotePost streamKey imageData]
  if previewDisabled then (acts, previewDisabled)
  else (acts ++ [UAction.updateSetting true], true)

/-- An image produced by `createImageBitmap` from a chosen file: what
`updatePreview` consumes of it is its dimensions. -/
structure ImageFile where
  width : Nat
  height : Nat
deriving DecidableEq

/-- uploadPreview (lines 63-73), modelling the chooser's result as an
`Option`: when the file chooser yields nothing the function returns at
once; otherwise it runs `updatePreview` on the chosen image. -/
def uploadPreview (file : Option ImageFile) (streamKey : String)
    (previewDisabled : Bool) : List UAction × Bool :=
  match file with
  | none => ([], previewDisabled)
  | some f => updatePreview streamKey f.width f.height previewDisabled

/-- Recognizer for retry-callback firings in a trace. -/
def isRetryFired : Event → Bool
  | Event.retryFired _ => true
  | _ => false

/-- State after a user-initiated submit is answered 429 with
retry_after 5: one timer (handle 0) pending, slot holding it. -/
def sA : SysState :=
  (postPreview "k" "d" (HttpResult.err 429 5) init).1

/-- State after that timer fires at time 5 and the re-attempted submit is
answered 429 again: the callback reschedules (handle 1, due at 10) and
then clears the slot, orphaning the new timer. -/
def sB : SysState :=
  fireTimer ⟨0, 5, "k", "d"⟩ (HttpResult.err 429 5) (tick 5 sA)

/-- State after a further user-initiated submit is answered 429 while the
orphaned timer is still pending: `resetRetry` finds an empty slot and
cancels nothing, so a second timer (handle 2) joins the pending list. -/
def sC : SysState :=
  (postPreview "k" "d" (HttpResult.err 429 5) sB).1

/-- A session-end event for the current user's own stream context. -/
def sessionEnd : RtcEvent :=
  ⟨"stream", "me", 0⟩

/-- State after the session-end event arrives in state `sB`, while the
orphaned timer (handle 1) is pending. -/
def sBEnd : SysState :=
  rtcConnectionVideo "me" sessionEnd sB

/-- resetRetry never changes the clock. -/
@[simp] theorem resetRetry_now (s : SysState) : (resetRetry s).now = s.now := by
  cases h : s.retryUpdate <;> simp [resetRetry, h]

/-- resetRetry never changes the fresh-handle counter. -/
@[simp] theorem resetRetry_nextId (s : SysState) : (resetRetry s).nextId = s.nextId := by
  cases h : s.retryUpdate <;> simp [resetRetry, h]

/-- resetRetry never changes the trace. -/
@[simp] theorem resetRetry_trace (s : SysState) : (resetRetry s).trace = s.trace := by
  cases h : s.retryUpdate <;> simp [resetRetry, h]

/-- resetRetry never changes the recorded stream id. -/
@[simp] theorem resetRetry_streamId (s : SysState) : (resetRetry s).streamId = s.streamId := by
  cases h : s.retryUpdate <;> simp [resetRetry, h]

/-- After resetRetry the slot is always empty. -/
@[simp] theorem resetRetry_retryUpdate (s : SysState) :
    (resetRetry s).retryUpdate = none := by
  cases h : s.retryUpdate <;> simp [resetRetry, h]

/-- resetRetry on a state with an empty slot is the identity. -/
theorem resetRetry_of_none (s : SysState) (h : s.retryUpdate = none) :
    resetRetry s = s := by
  simp [resetRetry, h]

/-- When every pending timer is the one held in the slot, resetRetry
cancels them all. -/
theorem resetRetry_pending_eq_nil (s : SysState)
    (hwf : ∀ t ∈ s.pending, s.retryUpdate = some t.id) :
    (resetRetry s).pending = [] := by
  cases h : s.retryUpdate with
  | none =>
      have hp : s.pending = [] := by
        cases hp : s.pending with
        | nil => rfl
        | cons a l =>
            have := hwf a (by rw [hp]; exact List.mem_cons_self a l)
            rw [h] at this
            exact absurd this (by simp)
      simp [resetRetry, h, hp]
  | some tid =>
      simp only [resetRetry, h]
      rw [List.filter_eq_nil_iff]
      intro t ht
      have := hwf t ht
      rw [h] at this
      have : tid = t.id := by injection this
      simp [this]

/-- Characterization of the 429 branch of postPreview. -/
theorem postPreview_429_eq (k d : String) (ra : Nat) (s : SysState) :
    postPreview k d (HttpResult.err 429 ra) s =
      ({ resetRetry { s with trace := s.trace ++ [Event.posted k d] } with
           pending := (resetRetry
             { s with trace := s.trace ++ [Event.posted k d] }).pending ++
             [⟨s.nextId, s.now + ra, k, d⟩],
           retryUpdate := some s.nextId,
           nextId := s.nextId + 1 }, PostResult.ok) := by
  have h1 : (resetRetry
      { s with trace := s.trace ++ [Event.posted k d] }).nextId = s.nextId := by
    simp
  have h2 : (resetRetry
      { s with trace := s.trace ++ [Event.posted k d] }).now = s.now := by
    simp
  simp [postPreview, h1, h2]

/-- The trace effect of postPreview: exactly one POST event is appended,
whatever the outcome. -/
theorem postPreview_trace (k d : String) (resp : HttpResult) (s : SysState) :
    ((postPreview k d resp s).1).trace = s.trace ++ [Event.posted k d] := by
  cases resp with
  | ok => rfl
  | err status ra =>
      by_cases h : status = 429
      · subst h
        simp [postPreview]
      · simp [postPreview, h]

/-- The effect of fireTimer on the trace when the timer actually fires: the
callback event and the re-attempted POST with the captured payload. -/
theorem fireTimer_trace_of_fired (t : Timer) (resp : HttpResult) (s : SysState)
    (hmem : t ∈ s.pending) (htime : t.fireAt ≤ s.now) :
    (fireTimer t resp s).trace =
      s.trace ++ [Event.retryFired t.id, Event.posted t.streamKey t.imageData] := by
  unfold fireTimer
  rw [if_pos ⟨hmem, htime⟩]
  dsimp only
  split
  · simp [postPreview_trace]
  · simp [postPreview_trace]

/-- C8: cancelling the retry timer is idempotent — resetRetry after
resetRetry equals a single resetRetry, the slot is empty after any call,
and calling it with no timer set leaves the whole state unchanged. -/
theorem resetRetry_cancel_idempotent (s : SysState) :
    resetRetry (resetRetry s) = resetRetry s ∧
    (resetRetry s).retryUpdate = none ∧
    (s.retryUpdate = none → resetRetry s = s) :=
  ⟨resetRetry_of_none _ (resetRetry_retryUpdate s),
   resetRetry_retryUpdate s,
   fun h => resetRetry_of_none s h⟩

/-- Witness for C8: at the initial state the slot is empty and resetRetry
is a no-op. -/
theorem resetRetry_cancel_idempotent_witness :
    init.retryUpdate = none ∧ resetRetry init = init :=
  ⟨rfl, (resetRetry_cancel_idempotent init).2.2 rfl⟩

/-- C3: a submit failing with any status other than 429 rethrows the error
to the caller and schedules nothing — the pending timers, the slot and the
handle counter are untouched. -/
theorem postPreview_error_propagates (k d : String) (status ra : Nat)
    (s : SysState) (h : status ≠ 429) :
    (postPreview k d (HttpResult.err status ra) s).2 = PostResult.error status ∧
    (postPreview k d (HttpResult.err status ra) s).1.pending = s.pending ∧
    (postPreview k d (HttpResult.err status ra) s).1.retryUpdate = s.retryUpdate ∧
    (postPreview k d (HttpResult.err status ra) s).1.nextId = s.nextId := by
  simp [postPreview, h]

/-- Witness for C3: a 500 response at the initial state. -/
theorem postPreview_error_propagates_witness :
    (postPreview "k" "d" (HttpResult.err 500 0) init).2 = PostResult.error 500 ∧
    (postPreview "k" "d" (HttpResult.err 500 0) init).1.pending = [] ∧
    (postPreview "k" "d" (HttpResult.err 500 0) init).1.retryUpdate = none ∧
    (postPreview "k" "d" (HttpResult.err 500 0) init).1.nextId = 0 :=
  postPreview_error_propagates "k" "d" 500 0 init (by decide)

/-- C10: when the deferred submit run by the timer callback rethrows a
non-429 error, the line clearing the slot is skipped: the slot keeps the
already-fired handle while nothing is pending any more. -/
theorem fired_retry_failure_keeps_handle (t : Timer) (status ra : Nat)
    (s : SysState) (hpend : s.pending = [t]) (hslot : s.retryUpdate = some t.id)
    (htime : t.fireAt ≤ s.now) (hstatus : status ≠ 429) :
    (fireTimer t (HttpResult.err status ra) s).retryUpdate = some t.id ∧
    (fireTimer t (HttpResult.err status ra) s).pending = [] := by
  unfold fireTimer
  rw [if_pos ⟨by rw [hpend]; exact List.mem_cons_self t [], htime⟩]
  simp [postPreview, hstatus, hpend, hslot]

/-- Witness for C10: a timer whose re-attempted submit gets a 500. -/
theorem fired_retry_failure_keeps_handle_witness :
    (fireTimer ⟨0, 0, "k", "d"⟩ (HttpResult.err 500 0)
      ⟨some 0, 0, [⟨0, 0, "k", "d"⟩], 1, 0, []⟩).retryUpdate = some 0 ∧
    (fireTimer ⟨0, 0, "k", "d"⟩ (HttpResult.err 500 0)
      ⟨some 0, 0, [⟨0, 0, "k", "d"⟩], 1, 0, []⟩).pending = [] :=
  fired_retry_failure_keeps_handle ⟨0, 0, "k", "d"⟩ 500 0
    ⟨some 0, 0, [⟨0, 0, "k", "d"⟩], 1, 0, []⟩ rfl rfl (by decide) (by decide)

/-- C9: a cancelled file chooser makes uploadPreview return at once: no
thumbnail is built, nothing is dispatched or submitted, and the setting is
left exactly as it was. -/
theorem uploadPreview_cancelled_noop (k : String) (pd : Bool) :
    uploadPreview none k pd = ([], pd) :=
  rfl

/-- C6: the visible actions of updatePreview always start with the
thumbnail build followed by the local optimistic dispatch and only then
the remote submit, so the local update is issued strictly before the
remote submit. -/
theorem local_publish_before_remote_submit (k : String) (w h : Nat) (pd : Bool) :
    ∃ rest, (updatePreview k w h pd).1 =
      UAction.buildThumbnail (resizeDims w h).1 (resizeDims w h).2 ::
      UAction.dispatchLocal k (toDataURL (resizeDims w h).1 (resizeDims w h).2) ::
      UAction.remotePost k (toDataURL (resizeDims w h).1 (resizeDims w h).2) ::
      rest := by
  cases pd
  · exact ⟨[UAction.updateSetting true], rfl⟩
  · exact ⟨[], rfl⟩

/-- C7: updatePreview leaves the "disable stream previews" setting at
`true` in every run, never writes `false` to it, writes nothing at all
when it already was `true`, and flips it to `true` when it was `false` —
a one-way latch. -/
theorem disable_previews_one_way_latch (k : String) (w h : Nat) (pd : Bool) :
    (updatePreview k w h pd).2 = true ∧
    UAction.updateSetting false ∉ (updatePreview k w h pd).1 ∧
    (pd = true → ∀ b, UAction.updateSetting b ∉ (updatePreview k w h pd).1) ∧
    (pd = false → UAction.updateSetting true ∈ (updatePreview k w h pd).1) := by
  cases pd <;> simp [updatePreview]

/-- Witness for C7: with the setting still off, no `false` is ever written. -/
theorem disable_previews_one_way_latch_witness :
    UAction.updateSetting false ∉ (updatePreview "k" 8 8 false).1 :=
  (disable_previews_one_way_latch "k" 8 8 false).2.1

/-- C1: a submit answered 429 in a state where the slot tracks the pending
retry (the single-slot model of the spec) returns without error, cancels
the previously slotted timer, and leaves exactly one new pending timer,
due `retry_after` units from now and holding the identical payload; that
timer cannot fire before its instant, and once its instant is reached its
callback re-invokes the submit with the same `(streamKey, imageData)`. -/
theorem postPreview_rate_limited (k d : String) (ra : Nat) (s : SysState)
    (hwf : ∀ t ∈ s.pending, s.retryUpdate = some t.id) :
    (postPreview k d (HttpResult.err 429 ra) s).2 = PostResult.ok ∧
    (postPreview k d (HttpResult.err 429 ra) s).1.retryUpdate = some s.nextId ∧
    (postPreview k d (HttpResult.err 429 ra) s).1.pending =
      [⟨s.nextId, s.now + ra, k, d⟩] ∧
    (∀ resp e, e < ra →
      fireTimer ⟨s.nextId, s.now + ra, k, d⟩ resp
        (tick e (postPreview k d (HttpResult.err 429 ra) s).1) =
      tick e (postPreview k d (HttpResult.err 429 ra) s).1) ∧
    (∀ resp e, ra ≤ e →
      (fireTimer ⟨s.nextId, s.now + ra, k, d⟩ resp
        (tick e (postPreview k d (HttpResult.err 429 ra) s).1)).trace =
      (postPreview k d (HttpResult.err 429 ra) s).1.trace ++
        [Event.retryFired s.nextId, Event.posted k d]) := by
  have hnil : (resetRetry
      { s with trace := s.trace ++ [Event.posted k d] }).pending = [] :=
    resetRetry_pending_eq_nil _ hwf
  have hP : (postPreview k d (HttpResult.err 429 ra) s).1 =
      { resetRetry { s with trace := s.trace ++ [Event.posted k d] } with
          pending := [⟨s.nextId, s.now + ra, k, d⟩],
          retryUpdate := some s.nextId,
          nextId := s.nextId + 1 } := by
    have := congrArg Prod.fst (postPreview_429_eq k d ra s)
    rw [hnil] at this
    simpa using this
  refine ⟨?_, ?_, ?_, ?_, ?_⟩
  · rw [postPreview_429_eq]
  · rw [hP]
  · rw [hP]
  · intro resp e he
    rw [hP]
    unfold fireTimer
    rw [if_neg]
    rintro ⟨-, habs⟩
    simp [tick] at habs
    omega
  · intro resp e he
    rw [hP]
    rw [fireTimer_trace_of_fired]
    · simp [tick]
    · simp [tick]
    · simp [tick]
      omega

/-- Witness for C1: a 429 with retry_after 5 at the initial state yields no
error, a filled slot, and the single pending timer due at 5. -/
theorem postPreview_rate_limited_witness :
    (postPreview "k" "d" (HttpResult.err 429 5) init).2 = PostResult.ok ∧
    (postPreview "k" "d" (HttpResult.err 429 5) init).1.retryUpdate = some 0 ∧
    (postPreview "k" "d" (HttpResult.err 429 5) init).1.pending =
      [⟨0, 5, "k", "d"⟩] := by
  have h := postPreview_rate_limited "k" "d" 5 init (by intro t ht; cases ht)
  exact ⟨h.1, h.2.1, h.2.2.1⟩

/-- C2: the single-pending-retry invariant FAILS on the code. Run: a
submit is answered 429 (timer 0 due at 5); timer 0 fires and the re-
attempted submit is answered 429 again, so the callback schedules timer 1
and then executes `retryUpdate = undefined`, emptying the slot while
timer 1 is still pending; a further submit answered 429 then finds the
slot empty, cancels nothing, and schedules timer 2 — two retry timers are
pending at once, and when time reaches 10 both of their callbacks fire
(three retry firings in the whole trace instead of one). -/
theorem two_retry_timers_pending :
    sC.retryUpdate = some 2 ∧
    sC.pending = [⟨1, 10, "k", "d"⟩, ⟨2, 10, "k", "d"⟩] ∧
    (List.filter isRetryFired
      (fireTimer ⟨2, 10, "k", "d"⟩ HttpResult.ok
        (fireTimer ⟨1, 10, "k", "d"⟩ HttpResult.ok (tick 5 sC))).trace).length
      = 3 := by
  decide

/-- C4: the session-end cancellation FAILS on the code for an orphaned
timer. In state `sB` timer 1 is pending but the slot is empty (it was
cleared by the fired callback right after rescheduling), so the
RTC_CONNECTION_VIDEO session-end event records the cleared stream id yet
cancels nothing: timer 1 stays pending and its deferred submit still
fires afterward. -/
theorem session_end_leaves_orphan_pending :
    sB.retryUpdate = none ∧
    sB.pending = [⟨1, 10, "k", "d"⟩] ∧
    sBEnd.streamId = 0 ∧
    sBEnd.pending = [⟨1, 10, "k", "d"⟩] ∧
    (List.filter isRetryFired
      (fireTimer ⟨1, 10, "k", "d"⟩ HttpResult.ok (tick 5 sBEnd)).trace).length
      = 2 := by
  decide

/-- Rounded division stays below a bound that the exact quotient respects. -/
theorem roundDiv_le (a b c : Nat) (hb : 0 < b) (h : a ≤ c * b) :
    roundDiv a b ≤ c := by
  have hb2 : 0 < 2 * b := by omega
  have hexp : (c + 1) * (2 * b) = 2 * (c * b) + 2 * b := by ring
  have hlt : 2 * a + b < (c + 1) * (2 * b) := by omega
  exact Nat.lt_succ_iff.mp ((Nat.div_lt_iff_lt_mul hb2).mpr hlt)

/-- Rounded division is within one of the exact quotient, stated as
two-sided bounds after multiplying through by the divisor. -/
theorem roundDiv_near (a b : Nat) (hb : 0 < b) :
    b * roundDiv a b ≤ a + b ∧ a ≤ b * roundDiv a b + b := by
  have h1 := Nat.div_add_mod (2 * a + b) (2 * b)
  have h2 : (2 * a + b) % (2 * b) < 2 * b := Nat.mod_lt _ (by omega)
  have h3 : 2 * b * ((2 * a + b) / (2 * b)) =
      2 * (b * ((2 * a + b) / (2 * b))) := by ring
  rw [h3] at h1
  unfold roundDiv
  omega

/-- Counterexample for C5 as stated: the input 600 × 1200 has its dominant
dimension above 512, yet the resize branches on the width alone, fixes the
width at 512 and derives the height as round(1200·512/600) = 1024 > 512. -/
theorem resize_bound_counterexample :
    ¬ (maxWidth < max 600 1200 →
       (resizeDims 600 1200).1 ≤ maxWidth ∧
       (resizeDims 600 1200).2 ≤ maxHeight) := by
  decide

/-- C5 (amended): the resize scales the width to 512 exactly when the
input width exceeds 512 and otherwise scales the height to 512, always
preserving the aspect within rounding of the derived dimension; both
output dimensions are bounded by 512 provided the height does not exceed
the width whenever the width exceeds 512 — for a taller-than-wide image
with width above 512 the derived height exceeds the bound. -/
theorem resize_bounded (w h : Nat) (hdom : maxWidth < w ∨ maxHeight < h)
    (hshape : maxWidth < w → h ≤ w) :
    (resizeDims w h).1 ≤ maxWidth ∧ (resizeDims w h).2 ≤ maxHeight ∧
    (maxWidth < w →
      (resizeDims w h).1 = maxWidth ∧
      w * (resizeDims w h).2 ≤ maxWidth * h + w ∧
      maxWidth * h ≤ w * (resizeDims w h).2 + w) ∧
    (¬ maxWidth < w →
      (resizeDims w h).2 = maxHeight ∧
      h * (resizeDims w h).1 ≤ maxHeight * w + h ∧
      maxHeight * w ≤ h * (resizeDims w h).1 + h) := by
  by_cases hw : maxWidth < w
  · have hwpos : 0 < w := lt_of_le_of_lt (Nat.zero_le _) hw
    have hhw : h ≤ w := hshape hw
    have hres : resizeDims w h = (maxWidth, roundDiv (h * maxWidth) w) := by
      simp [resizeDims, hw]
    rw [hres]
    have hb1 : roundDiv (h * maxWidth) w ≤ maxWidth :=
      roundDiv_le _ _ _ hwpos (by show h * 512 ≤ 512 * w; omega)
    have hnear := roundDiv_near (h * maxWidth) w hwpos
    refine ⟨le_refl _, hb1, fun _ => ⟨rfl, ?_, ?_⟩, fun hc => absurd hw hc⟩
    · rw [Nat.mul_comm maxWidth h]
      exact hnear.1
    · rw [Nat.mul_comm maxWidth h]
      exact hnear.2
  · have hh : maxHeight < h := hdom.resolve_left hw
    have hhpos : 0 < h := lt_of_le_of_lt (Nat.zero_le _) hh
    have hwle : w ≤ maxWidth := Nat.le_of_not_lt hw
    have hres : resizeDims w h = (roundDiv (w * maxHeight) h, maxHeight) := by
      simp [resizeDims, hw]
    rw [hres]
    have hb1 : roundDiv (w * maxHeight) h ≤ maxWidth :=
      roundDiv_le _ _ _ hhpos (by
        show w * 512 ≤ 512 * h
        have hw' : w ≤ 512 := hwle
        have hh' : 512 < h := hh
        omega)
    have hnear := roundDiv_near (w * maxHeight) h hhpos
    refine ⟨hb1, le_refl _, fun hc => absurd hc hw, fun _ => ⟨rfl, ?_, ?_⟩⟩
    · rw [Nat.mul_comm maxHeight w]
      exact hnear.1
    · rw [Nat.mul_comm maxHeight w]
      exact hnear.2

/-- Witness for the amended C5: a wide 1024 × 512 input comes out within
the 512 × 512 box. -/
theorem resize_bounded_witness :
    (resizeDims 1024 512).1 ≤ maxWidth ∧ (resizeDims 1024 512).2 ≤ maxHeight := by
  have h := resize_bounded 1024 512 (Or.inl (by decide)) (fun _ => by decide)
  exact ⟨h.1, h.2.1⟩
